import Mathlib

/-!
# Aetherel: server bootstrap, request-context injection and database connector

A shallow embedding of `src/context.go`, `src/postgres/postgres.go` and
`src/server/server.go`.

Conventions used throughout:

* a Go `error` is `Option GoError`, `none` being the nil error;
* a Go pointer that may be nil is an `Option`, `none` being the nil pointer;
* a run-time panic is the `Except.error` branch of an `Except GoPanic _`;
* calls into external collaborators (pgx, echo) are answered by an explicit
  environment and, where their order matters, recorded in a trace;
* `slog` calls write log records only and are left out of the traces.
-/

namespace Aetherel

/-! ## Go errors -/

/-- Go error values. `leaf` is an error without an `Unwrap` method (for example
one made by `errors.New`), `id` standing for its identity under `==`;
`wrapError` is the `*fmt.wrapError` that `fmt.Errorf` builds for a format with
one `%w` verb: the formatted message and the wrapped operand. -/
inductive GoError where
  | leaf (id : Nat) (msg : String)
  | wrapError (msg : String) (err : GoError)
  deriving DecidableEq, Repr

namespace GoError

/-- The `Error()` method. -/
def Error : GoError → String
  | leaf _ msg => msg
  | wrapError msg _ => msg

/-- The function `errors.Unwrap`. -/
def Unwrap : GoError → Option GoError
  | leaf _ _ => none
  | wrapError _ err => some err

end GoError

/-- The function `errors.Is`: `target` is met somewhere on the `Unwrap` chain of `err`. -/
def errorsIs : GoError → GoError → Bool
  | GoError.leaf id msg, target => GoError.leaf id msg == target
  | GoError.wrapError msg err, target =>
      GoError.wrapError msg err == target || errorsIs err target

/-- The sentinel `http.ErrServerClosed`. -/
def ErrServerClosed : GoError := GoError.leaf 0 "http: Server closed"

/-- What the verb `%v` prints for an `error` operand: `<nil>` for the nil error. -/
def fmtV : Option GoError → String
  | none => "<nil>"
  | some e => e.Error

/-- The string `part` occurs in `msg`. -/
def Contains (msg part : String) : Prop := part.data <:+: msg.data

instance (msg part : String) : Decidable (Contains msg part) := by
  unfold Contains; infer_instance

/-- Go's `len` of a string: its length in bytes. -/
def len (s : String) : Nat := s.utf8ByteSize

/-! ## Configuration -/

namespace config

/-- Modelled from the spec: the type `config.LogFormat` is declared in the package
`config`, which is not among the sources; the spec gives "log format
(plaintext | structured)" and `initializeLogger` switches on the two constants
`LogFormatPlaintext` and `LogFormatJSON`. -/
inductive LogFormat where
  | LogFormatPlaintext
  | LogFormatJSON
  deriving DecidableEq, Repr

/-- Modelled from the spec: the section `App` of `config.Config`, with the fields the
sources read (`Host`, `Port`, `Debug`). -/
structure AppConfig where
  Host : String
  Port : Nat
  Debug : Bool
  deriving DecidableEq, Repr

/-- Modelled from the spec: the section `Database` of `config.Config` (`URL`, `Schema`). -/
structure DatabaseConfig where
  URL : String
  Schema : String
  deriving DecidableEq, Repr

/-- Modelled from the spec: the section `Log` of `config.Config` (`Format`, `Level`,
`Verbose`); the level is kept as the `slog` level number `Level.ToSlog()` yields. -/
structure LogConfig where
  Format : LogFormat
  Level : Int
  Verbose : Bool
  deriving DecidableEq, Repr

/-- Modelled from the spec: the struct `config.Config`, declared in the package `config`,
which is not among the sources. -/
structure Config where
  App : AppConfig
  Database : DatabaseConfig
  Log : LogConfig
  deriving DecidableEq, Repr

end config

/-! ## `context.go`: the request-context injector and the accessor -/

/-- Keys of context values. A key is an interface value, equal to another one when
dynamic type and value agree: `contextKey n` is `aetherel.ContextKey(n)`, and
`foreign typ repr` a key of any other type. -/
inductive Key where
  | contextKey (n : Nat)
  | foreign (typ : String) (repr : String)
  deriving DecidableEq, Repr

/-- The constant `ctxConfig ContextKey = iota`. -/
def ctxConfig : Key := Key.contextKey 0

/-- Values stored in a context: a `*config.Config` (possibly the nil pointer) or a
value of some other dynamic type. -/
inductive Value where
  | configPtr (p : Option config.Config)
  | foreign (typ : String) (repr : String)
  deriving DecidableEq, Repr

/-- The value side of `context.Context`: the empty context, a `context.WithValue`
node (whose value may be the nil interface, `none`), and any other derived
context (cancel, deadline), which hands `Value` on to its parent. -/
inductive Context where
  | background
  | withValue (parent : Context) (key : Key) (val : Option Value)
  | derived (parent : Context)
  deriving DecidableEq, Repr

namespace Context

/-- The method `ctx.Value(key)`: the nearest binding of `key`, `none` (the nil
interface) when there is none. -/
def Value : Context → Key → Option Aetherel.Value
  | background, _ => none
  | withValue parent k v, key => if k = key then v else parent.Value key
  | derived parent, key => parent.Value key

end Context

/-- The function `context.WithValue`. -/
def WithValue (parent : Context) (key : Key) (val : Option Value) : Context :=
  Context.withValue parent key val

/-- The part of `*http.Request` the injector touches: its context, next to fields it
leaves alone. -/
structure Request where
  ctx : Context
  Method : String
  URI : String
  deriving DecidableEq, Repr

namespace Request

/-- The method `r.Context()`. -/
def Context (r : Request) : Aetherel.Context := r.ctx

/-- The method `r.WithContext(ctx)`: a copy of the request with the context replaced. -/
def WithContext (r : Request) (ctx : Aetherel.Context) : Request := { r with ctx := ctx }

end Request

/-- The `echo.Context` of one request: the request it carries and the rest of its
state (path parameters, store, response), which the injector does not touch. -/
structure EchoContext where
  request : Request
  store : List (String × String)
  deriving DecidableEq, Repr

namespace EchoContext

/-- The method `c.Request()`. -/
def Request (c : EchoContext) : Aetherel.Request := c.request

/-- The method `c.SetRequest(r)`. -/
def SetRequest (c : EchoContext) (r : Aetherel.Request) : EchoContext := { c with request := r }

end EchoContext

/-- An `echo.HandlerFunc`: takes the request's `echo.Context`, may update it, and
returns an error. -/
abbrev HandlerFunc := EchoContext → EchoContext × Option GoError

/-- An `echo.MiddlewareFunc`. -/
abbrev MiddlewareFunc := HandlerFunc → HandlerFunc

/-- `InjectContext` (context.go, lines 20-33). -/
def InjectContext (cfg : Option config.Config) : MiddlewareFunc :=
  fun next =>
    fun c =>
      let ctx := c.Request.Context
      let ctx := WithValue ctx ctxConfig (some (Value.configPtr cfg))
      let c := c.SetRequest (c.Request.WithContext ctx)
      next c

/-- The run-time panics of the accessor. -/
inductive GoPanic where
  /-- A failed type assertion `x.(*config.Config)`: nil interface or another dynamic type. -/
  | interfaceConversion
  /-- The dereference of a nil pointer. -/
  | nilPointerDereference
  deriving DecidableEq, Repr

deriving instance DecidableEq for Except

/-- `Config` (context.go, lines 36-38): `*ctx.Value(ctxConfig).(*config.Config)`. -/
def Config (ctx : Context) : Except GoPanic config.Config :=
  match ctx.Value ctxConfig with
  | none => Except.error GoPanic.interfaceConversion
  | some (Value.foreign _ _) => Except.error GoPanic.interfaceConversion
  | some (Value.configPtr none) => Except.error GoPanic.nilPointerDereference
  | some (Value.configPtr (some cfg)) => Except.ok cfg

/-! ## What lies outside the repository -/

/-- A `*pgxpool.Pool` handle. -/
structure Pool where
  id : Nat
  deriving DecidableEq, Repr

/-- Calls made to the database driver, in the order they are made. -/
inductive DbCall where
  /-- The call `pgxpool.New(ctx, connString)`. -/
  | New (connString : String)
  /-- The call `db.Exec(ctx, sql)`. -/
  | Exec (db : Pool) (sql : String)
  deriving DecidableEq, Repr

/-- The behaviour of the collaborators the code calls but does not define:
`pgxpoolNew connString` is what `pgxpool.New` returns, `Exec db sql` the error
`db.Exec` returns, and `isPrintTable` the answer of the Unicode tables behind
`strconv.IsPrint` for runes above Latin-1. -/
structure Runtime where
  pgxpoolNew : String → Except GoError Pool
  Exec : Pool → String → Option GoError
  isPrintTable : Nat → Bool

/-! ## `strconv.Quote`, which the verb `%q` applies to a string -/

/-- The double quote character. -/
def dquote : Char := Char.ofNat 34

/-- The backslash character. -/
def backslash : Char := Char.ofNat 92

/-- The table `lowerhex` of strconv, at index `n % 16`. -/
def lowerhex (n : Nat) : Char := "0123456789abcdef".data.getD (n % 16) '0'

/-- The function `strconv.IsPrint`: decided in place for Latin-1, by table above it. -/
def IsPrint (rt : Runtime) (r : Nat) : Bool :=
  if r ≤ 0xFF then
    if 0x20 ≤ r && r ≤ 0x7E then true
    else if 0xA1 ≤ r && r ≤ 0xFF then r != 0xAD
    else false
  else rt.isPrintTable r

/-- The function `appendEscapedRune` of strconv for `Quote` (quote character `"`,
neither ASCII-only nor graphic-only): the text appended for one rune. -/
def escapedRune (rt : Runtime) (c : Char) : List Char :=
  let r := c.toNat
  if r = 34 || r = 92 then [backslash, c]
  else if IsPrint rt r then [c]
  else if r = 7 then [backslash, 'a']
  else if r = 8 then [backslash, 'b']
  else if r = 12 then [backslash, 'f']
  else if r = 10 then [backslash, 'n']
  else if r = 13 then [backslash, 'r']
  else if r = 9 then [backslash, 't']
  else if r = 11 then [backslash, 'v']
  else if r < 32 || r = 0x7f then
    [backslash, 'x', lowerhex (r % 256 / 16), lowerhex (r % 256 % 16)]
  else if r < 0x10000 then
    [backslash, 'u', lowerhex (r / 4096), lowerhex (r / 256), lowerhex (r / 16), lowerhex r]
  else
    [backslash, 'U', lowerhex (r / 268435456), lowerhex (r / 16777216), lowerhex (r / 1048576),
      lowerhex (r / 65536), lowerhex (r / 4096), lowerhex (r / 256), lowerhex (r / 16), lowerhex r]

/-- The function `strconv.Quote` on a valid UTF-8 string. -/
def Quote (rt : Runtime) (s : String) : String :=
  String.mk ([dquote] ++ (s.data.map (escapedRune rt)).flatten ++ [dquote])

/-! ## `postgres/postgres.go` -/

/-- What `Connect` returns, `(*pgxpool.Pool, error)`, and the driver calls it made. -/
structure ConnectResult where
  db : Option Pool
  err : Option GoError
  calls : List DbCall
  deriving DecidableEq, Repr

/-- `Connect` (postgres.go, lines 11-32). -/
def Connect (rt : Runtime) (cfg : config.Config) : ConnectResult :=
  match rt.pgxpoolNew cfg.Database.URL with
  | Except.error err =>
      { db := none, err := some err, calls := [DbCall.New cfg.Database.URL] }
  | Except.ok db =>
      if 0 < len cfg.Database.Schema && cfg.Database.Schema != "public" then
        let sql := "SET search_path TO " ++ cfg.Database.Schema
        match rt.Exec db sql with
        | some err =>
            { db := none
              err := some (GoError.wrapError
                ("cannot switch to database schema " ++ Quote rt cfg.Database.Schema ++ ": "
                  ++ err.Error) err)
              calls := [DbCall.New cfg.Database.URL, DbCall.Exec db sql] }
        | none =>
            { db := some db, err := none
              calls := [DbCall.New cfg.Database.URL, DbCall.Exec db sql] }
      else
        { db := some db, err := none, calls := [DbCall.New cfg.Database.URL] }

/-! ## `server/server.go`: initialization -/

/-- The stages registered with `e.Use`, by name. -/
inductive Middleware where
  | RequestID
  | Recover
  | Timeout
  | InjectContext (cfg : config.Config)
  | RequestLogger
  deriving DecidableEq, Repr

/-- The `*echo.Echo` engine as far as `Initialize` configures it. -/
structure Echo where
  HideBanner : Bool
  HidePort : Bool
  middleware : List Middleware
  deriving DecidableEq, Repr

/-- The function `echo.New`. -/
def echoNew : Echo := { HideBanner := false, HidePort := false, middleware := [] }

/-- The method `e.Use`. -/
def Echo.Use (e : Echo) (m : Middleware) : Echo := { e with middleware := e.middleware ++ [m] }

/-- The `*slog.Logger` built by `initializeLogger`: its handler kind and options. -/
structure Logger where
  Format : config.LogFormat
  Level : Int
  AddSource : Bool
  deriving DecidableEq, Repr

/-- The struct `Server` (server.go, lines 24-29). `Cfg` is a `*config.Config` that
`Initialize` has dereferenced already, so it is kept as the configuration it
points to; `DB` is nil when no pool was opened. -/
structure Server where
  Echo : Echo
  Logger : Logger
  Cfg : config.Config
  DB : Option Pool
  deriving DecidableEq, Repr

/-- `initializeLogger` (server.go, lines 142-160): the handler is chosen by
`cfg.Log.Format`; the call `slog.SetDefault(logger)`, which installs the logger
process-wide, is not modelled. -/
def initializeLogger (cfg : config.Config) : Logger :=
  { Format := cfg.Log.Format
    Level := cfg.Log.Level
    AddSource := cfg.Log.Verbose && cfg.App.Debug }

/-- What `Initialize` returns, `(*Server, error)`, and the driver calls it made. -/
structure InitializeResult where
  server : Option Server
  err : Option GoError
  calls : List DbCall
  deriving DecidableEq, Repr

/-- `Initialize` (server.go, lines 31-81). -/
def Initialize (rt : Runtime) (cfg : config.Config) : InitializeResult :=
  let logger := initializeLogger cfg
  let e := echoNew
  let e := { e with HideBanner := true }
  let e := { e with HidePort := true }
  let e := e.Use Middleware.RequestID
  let e := e.Use Middleware.Recover
  let e := e.Use Middleware.Timeout
  let e := e.Use (Middleware.InjectContext cfg)
  let e := e.Use Middleware.RequestLogger
  if 0 < len cfg.Database.URL then
    let r := Connect rt cfg
    match r.err with
    | some err =>
        { server := none
          err := some (GoError.wrapError
            ("cannot connect to postgres database: " ++ err.Error) err)
          calls := r.calls }
    | none =>
        { server := some { Echo := e, Logger := logger, Cfg := cfg, DB := r.db }
          err := none
          calls := r.calls }
  else
    { server := some { Echo := e, Logger := logger, Cfg := cfg, DB := none }
      err := none
      calls := [] }

/-! ## `server/server.go`: the lifecycle manager

`StartServer` runs on one goroutine: it calls `s.Echo.Start(host)` and waits for
it to return (lines 108-116), then waits on `ctxServer.Done()` (line 118), then
runs the shutdown body (lines 120-139). A second goroutine (lines 101-106)
receives the first SIGINT or SIGTERM and calls `cancelServer`; it is taken to
have registered with `signal.Notify` before the first signal arrives. What
happens around the call arrives as a sequence of events; times are counted in
nanoseconds from the call of `StartServer`. The shutdown body runs without an
event in between, `DB.Close` being a local operation. -/

/-- The errors `ctx.Err()` reports. -/
inductive CtxErr where
  | Canceled
  | DeadlineExceeded
  deriving DecidableEq, Repr

/-- The cancellation side of a `context.Context` at one moment: what `Deadline()`
and `Err()` report (`err = none`: not done). -/
structure DoneContext where
  deadline : Option Nat
  err : Option CtxErr
  deriving DecidableEq, Repr

/-- The constant `time.Second`, in nanoseconds. -/
def Second : Nat := 1000000000

/-- The function `context.WithDeadline`, called at time `now`: when the parent's
deadline is earlier the result is `WithCancel(parent)`; a child of a done parent
is done with the parent's error; a deadline already passed gives a context that
is done at once. -/
def WithDeadline (parent : DoneContext) (d : Nat) (now : Nat) : DoneContext :=
  let timer : DoneContext :=
    { deadline := some d
      err := match parent.err with
        | some e => some e
        | none => if d ≤ now then some CtxErr.DeadlineExceeded else none }
  match parent.deadline with
  | some cur => if cur < d then { deadline := some cur, err := parent.err } else timer
  | none => timer

/-- The function `context.WithTimeout`, called at time `now`. -/
def WithTimeout (parent : DoneContext) (timeout : Nat) (now : Nat) : DoneContext :=
  WithDeadline parent (now + timeout) now

/-- What happens around a running `StartServer`. -/
inductive Event where
  /-- The process receives SIGINT or SIGTERM. -/
  | signal
  /-- The caller cancels the parent context `ctx`. -/
  | cancel
  /-- The call `s.Echo.Start(host)` returns `err`. -/
  | startReturns (err : Option GoError)
  /-- Time advances by `d` nanoseconds. -/
  | elapse (d : Nat)
  deriving DecidableEq, Repr

/-- The calls `StartServer` makes on the resources it owns. -/
inductive Effect where
  | EchoStart (host : String)
  | DBClose (db : Pool)
  | EchoShutdown (ctxShutdown : DoneContext)
  deriving DecidableEq, Repr

/-- Where the goroutine of `StartServer` stands. -/
inductive PC where
  /-- Inside `s.Echo.Start(host)` (line 111). -/
  | inEchoStart
  /-- Blocked on `<-ctxServer.Done()` (line 118). -/
  | waitDone
  /-- The function has returned. -/
  | returned
  deriving DecidableEq, Repr

/-- The state of one call of `StartServer`: the position of its goroutine, the
clock, the parent context's `Err()`, whether the signal goroutine has called
`cancelServer`, the locals `errServer` (line 108), `ctxShutdown` (line 121) and
`err` (line 128), the returned error, and the calls made so far. -/
structure State where
  pc : PC
  now : Nat
  parentDeadline : Option Nat
  parentErr : Option CtxErr
  cancelServer : Bool
  errServer : Option GoError
  ctxShutdown : Option DoneContext
  err : Option GoError
  result : Option GoError
  trace : List Effect
  deriving DecidableEq, Repr

/-- The closure of lines 108-116 after `s.Echo.Start` has returned `err`: the value
bound to `errServer`. -/
def listenerError (err : Option GoError) : Option GoError :=
  match err with
  | some e => if !errorsIs e ErrServerClosed then some e else none
  | none => none

/-- The address `fmt.Sprintf("%v:%v", s.Cfg.App.Host, s.Cfg.App.Port)` (line 109). -/
def hostAddr (s : Server) : String := s.Cfg.App.Host ++ ":" ++ toString s.Cfg.App.Port

/-- The error built at lines 131-135:
`fmt.Errorf("could not shut down gracefully: %w. After server error: %v", err, errServer)`. -/
def shutdownError (err : GoError) (errServer : Option GoError) : GoError :=
  GoError.wrapError
    ("could not shut down gracefully: " ++ err.Error ++ ". After server error: " ++ fmtV errServer)
    err

/-- The context `ctxServer` of line 100, `context.WithCancel(ctx)`, is done: either
`cancelServer` was called or the parent is done. -/
def ctxServerDone (st : State) : Bool := st.cancelServer || st.parentErr.isSome

/-- The shutdown body, lines 120-139, run from state `st`; `EchoShutdown` answers the
call `s.Echo.Shutdown(ctxShutdown)`. -/
def shutdown (s : Server) (EchoShutdown : DoneContext → Option GoError) (st : State) : State :=
  let ctxShutdown := WithTimeout { deadline := st.parentDeadline, err := st.parentErr } (5 * Second) st.now
  let trace := match s.DB with
    | some db => st.trace ++ [Effect.DBClose db]
    | none => st.trace
  let err := EchoShutdown ctxShutdown
  let trace := trace ++ [Effect.EchoShutdown ctxShutdown]
  match err with
  | some e =>
      { st with pc := PC.returned, ctxShutdown := some ctxShutdown, err := some e
                result := some (shutdownError e st.errServer), trace := trace }
  | none =>
      { st with pc := PC.returned, ctxShutdown := some ctxShutdown, err := none
                result := none, trace := trace }

/-- The goroutine of `StartServer` moves on when it can: from the wait of line 118,
once `ctxServer` is done, through the shutdown body to the return. -/
def resume (s : Server) (EchoShutdown : DoneContext → Option GoError) (st : State) : State :=
  match st.pc with
  | PC.waitDone => if ctxServerDone st then shutdown s EchoShutdown st else st
  | _ => st

/-- The parent context's `Err()` at time `now`, given what it was before. -/
def expire (deadline : Option Nat) (err : Option CtxErr) (now : Nat) : Option CtxErr :=
  match err with
  | some e => some e
  | none =>
      match deadline with
      | some d => if d ≤ now then some CtxErr.DeadlineExceeded else none
      | none => none

/-- The effect of one event on the state. A signal makes the signal goroutine call
`cancelServer` (a later signal finds the context cancelled already); the return
of `s.Echo.Start` matters only while the goroutine is inside that call, where it
binds `errServer` and lets the goroutine reach the wait of line 118. -/
def deliver (st : State) : Event → State
  | Event.signal => { st with cancelServer := true }
  | Event.cancel =>
      { st with parentErr := match st.parentErr with
                  | some e => some e
                  | none => some CtxErr.Canceled }
  | Event.elapse d =>
      { st with now := st.now + d
                parentErr := expire st.parentDeadline st.parentErr (st.now + d) }
  | Event.startReturns err =>
      match st.pc with
      | PC.inEchoStart => { st with pc := PC.waitDone, errServer := listenerError err }
      | _ => st

/-- One event, after which the goroutine of `StartServer` moves on if it can. A call
that has returned no longer changes. -/
def step (s : Server) (EchoShutdown : DoneContext → Option GoError) (st : State) (ev : Event) :
    State :=
  match st.pc with
  | PC.returned => st
  | _ => resume s EchoShutdown (deliver st ev)

/-- The state in which `StartServer(ctx)` has entered `s.Echo.Start(host)`. -/
def start (s : Server) (ctx : DoneContext) : State :=
  { pc := PC.inEchoStart
    now := 0
    parentDeadline := ctx.deadline
    parentErr := expire ctx.deadline ctx.err 0
    cancelServer := false
    errServer := none
    ctxShutdown := none
    err := none
    result := none
    trace := [Effect.EchoStart (hostAddr s)] }

/-- `StartServer` (server.go, lines 98-140) on server `s` with parent context `ctx`,
under the events `evs`, with `EchoShutdown` answering `s.Echo.Shutdown`: the
state reached. The call has returned when `pc = PC.returned`, and `result` is
then the error returned. -/
def StartServer (s : Server) (ctx : DoneContext) (EchoShutdown : DoneContext → Option GoError)
    (evs : List Event) : State :=
  evs.foldl (step s EchoShutdown) (start s ctx)

/-- The event is a return of `s.Echo.Start`. -/
def Event.isStartReturn : Event → Bool
  | Event.startReturns _ => true
  | _ => false

/-- The invariant of a call of `StartServer`: before the return only
`s.Echo.Start` has been called; after it, the shutdown body has run once, on the
context derived from the parent at that moment, and the returned error is built
from what `s.Echo.Shutdown` answered and from `errServer`. -/
def Sound (s : Server) (sh : DoneContext → Option GoError) (st : State) : Prop :=
  (st.pc ≠ PC.returned → st.trace = [Effect.EchoStart (hostAddr s)]) ∧
  (st.pc = PC.returned →
    ctxServerDone st = true ∧
    st.ctxShutdown = some (WithTimeout { deadline := st.parentDeadline, err := st.parentErr }
      (5 * Second) st.now) ∧
    st.trace = [Effect.EchoStart (hostAddr s)] ++ (match s.DB with
        | some db => [Effect.DBClose db]
        | none => []) ++
      [Effect.EchoShutdown (WithTimeout { deadline := st.parentDeadline, err := st.parentErr }
        (5 * Second) st.now)] ∧
    st.err = sh (WithTimeout { deadline := st.parentDeadline, err := st.parentErr }
      (5 * Second) st.now) ∧
    st.result = (sh (WithTimeout { deadline := st.parentDeadline, err := st.parentErr }
      (5 * Second) st.now)).map (fun e => shutdownError e st.errServer))

/-! ## Concrete instances -/

/-- A configuration with a database URL and the schema `reporting`. -/
def cfgReporting : config.Config :=
  { App := { Host := "localhost", Port := 8080, Debug := false }
    Database := { URL := "postgres://localhost/app", Schema := "reporting" }
    Log := { Format := config.LogFormat.LogFormatJSON, Level := 0, Verbose := false } }

/-- The same configuration without a database URL. -/
def cfgNoDatabase : config.Config :=
  { cfgReporting with Database := { URL := "", Schema := "" } }

/-- The same configuration with the default schema. -/
def cfgPublic : config.Config :=
  { cfgReporting with Database := { URL := "postgres://localhost/app", Schema := "public" } }

/-- The error of a statement the database rejects. -/
def errNoSchema : GoError := GoError.leaf 11 "ERROR: schema does not exist (SQLSTATE 3F000)"

/-- A driver that opens pool 1 for every URL and executes every statement. -/
def rtHealthy : Runtime :=
  { pgxpoolNew := fun _ => Except.ok { id := 1 }
    Exec := fun _ _ => none
    isPrintTable := fun _ => false }

/-- A driver that opens pool 1 for every URL and rejects every statement. -/
def rtRejecting : Runtime :=
  { pgxpoolNew := fun _ => Except.ok { id := 1 }
    Exec := fun _ _ => some errNoSchema
    isPrintTable := fun _ => false }

/-- A request whose context already binds `ctxConfig` to a value of another type and
carries a foreign key. -/
def echoContextBusy : EchoContext :=
  { request :=
      { ctx := Context.withValue
          (Context.derived (Context.withValue Context.background ctxConfig
            (some (Value.foreign "string" "stale"))))
          (Key.foreign "session.key" "0") (some (Value.foreign "string" "alice"))
        Method := "GET"
        URI := "/health" }
    store := [] }

/-- A server with an open pool, as `Initialize` builds it for `cfgReporting`. -/
def srvWithDB : Server :=
  { Echo := echoNew, Logger := initializeLogger cfgReporting, Cfg := cfgReporting
    DB := some { id := 1 } }

/-- A server without a pool, as `Initialize` builds it for `cfgNoDatabase`. -/
def srvNoDB : Server :=
  { Echo := echoNew, Logger := initializeLogger cfgNoDatabase, Cfg := cfgNoDatabase
    DB := none }

/-- A parent context without deadline that is not done, like `context.Background()`. -/
def ctxBackground : DoneContext := { deadline := none, err := none }

/-- The error of a listener that cannot bind its address. -/
def errBind : GoError := GoError.leaf 21 "listen tcp 127.0.0.1:8080: bind: address already in use"

/-- The error `context.Canceled`. -/
def errCanceled : GoError := GoError.leaf 31 "context canceled"

/-- The error `context.DeadlineExceeded`. -/
def errDeadlineExceeded : GoError := GoError.leaf 32 "context deadline exceeded"

/-- An engine whose `Shutdown` always succeeds. -/
def shutdownOk : DoneContext → Option GoError := fun _ => none

/-- An engine whose `Shutdown` never finishes the drain in time. -/
def shutdownTimesOut : DoneContext → Option GoError := fun _ => some errDeadlineExceeded

/-- An engine whose `Shutdown` returns `ctx.Err()` when handed a context that is done
and succeeds otherwise. -/
def shutdownByContext : DoneContext → Option GoError := fun c =>
  match c.err with
  | some CtxErr.Canceled => some errCanceled
  | some CtxErr.DeadlineExceeded => some errDeadlineExceeded
  | none => none

/-! ## Properties: strings and errors -/

theorem len_pos_iff (s : String) : 0 < len s ↔ s ≠ "" := by
  obtain ⟨cs⟩ := s
  cases cs with
  | nil => simp [len, String.utf8ByteSize, String.utf8ByteSize.go]
  | cons c cs =>
    have hc : 0 < c.utf8Size := Char.utf8Size_pos c
    have hne : (String.mk (c :: cs)) ≠ "" := by
      intro h
      have := congrArg String.data h
      simp at this
    simp only [len, String.utf8ByteSize, String.utf8ByteSize.go, ne_eq, hne, not_false_eq_true,
      iff_true]
    omega

theorem contains_mid (a b c : String) : Contains (a ++ b ++ c) b := by
  unfold Contains
  exact ⟨a.data, c.data, by simp [String.data_append]⟩

theorem contains_trans {a b c : String} (h₁ : Contains a b) (h₂ : Contains b c) :
    Contains a c := by
  unfold Contains at *
  exact List.IsInfix.trans h₂ h₁

theorem errorsIs_self (e : GoError) : errorsIs e e = true := by
  cases e <;> simp [errorsIs]

theorem errorsIs_wrapError (msg : String) (e target : GoError) (h : errorsIs e target = true) :
    errorsIs (GoError.wrapError msg e) target = true := by
  simp [errorsIs, h]

/-! ## Properties: the request-context injector (C6, C7) -/

/-- C6: for every configuration `cfg` (passed as a non-nil pointer), every
`echo.Context` `c` and every next handler, `InjectContext(cfg)(next)` calls
`next` on one and the same `c1`, which is `c` with the request context extended
under `ctxConfig`; `Config` on that context returns `cfg`, whatever the
original context carried; the result of `next` is returned unchanged. -/
theorem C6_inject_config_roundtrip (cfg : config.Config) (c : EchoContext) :
    ∃ c1 : EchoContext,
      (∀ next : HandlerFunc, InjectContext (some cfg) next c = next c1) ∧
      c1.Request.Context = WithValue c.Request.Context ctxConfig (some (Value.configPtr (some cfg))) ∧
      c1.Request.Method = c.Request.Method ∧ c1.Request.URI = c.Request.URI ∧
      c1.store = c.store ∧
      Config c1.Request.Context = Except.ok cfg := by
  refine ⟨c.SetRequest (c.Request.WithContext
    (WithValue c.Request.Context ctxConfig (some (Value.configPtr (some cfg))))), ?_, ?_, ?_, ?_, ?_, ?_⟩
  · intro next; rfl
  · rfl
  · rfl
  · rfl
  · rfl
  · simp [Config, EchoContext.Request, EchoContext.SetRequest, Request.Context,
      Request.WithContext, WithValue, Context.Value]

/-- The injector at work on a request whose context already binds `ctxConfig` to a
stale value of another type: the accessor sees the injected configuration. -/
theorem inject_overrides_stale_binding :
    Config echoContextBusy.Request.Context = Except.error GoPanic.interfaceConversion ∧
    (InjectContext (some cfgReporting)
        (fun c => (c, (Config c.Request.Context).toOption.map (fun _ => errBind)))
        echoContextBusy).2 = some errBind := by
  decide

/-- C7: on every context that holds no value under `ctxConfig`, `Config` panics (the
type assertion on the nil interface fails) and returns no configuration at all. -/
theorem C7_config_panics_without_injection (ctx : Context)
    (h : ctx.Value ctxConfig = none) :
    Config ctx = Except.error GoPanic.interfaceConversion ∧
      ∀ cfg : config.Config, Config ctx ≠ Except.ok cfg := by
  have hp : Config ctx = Except.error GoPanic.interfaceConversion := by
    simp [Config, h]
  refine ⟨hp, ?_⟩
  intro cfg hc
  rw [hp] at hc
  cases hc

/-- Witness of C7 at `context.Background()`. -/
theorem C7_config_panics_without_injection_witness :
    Context.background.Value ctxConfig = none ∧
      Config Context.background = Except.error GoPanic.interfaceConversion ∧
      ∀ cfg : config.Config, Config Context.background ≠ Except.ok cfg :=
  ⟨rfl, C7_config_panics_without_injection Context.background rfl⟩

/-! ## Properties: the database connector and initialization (C8, C9, C10) -/

/-- C8: `Initialize` returns an error exactly when the database URL is non-empty and
`Connect` fails; the server returned is then nil and the error wraps the one of
`Connect`; with an empty URL no driver call is made and `Initialize` returns a
server with a nil `DB` and a nil error. -/
theorem C8_initialize_error_iff (rt : Runtime) (cfg : config.Config) :
    ((Initialize rt cfg).err ≠ none ↔
        (cfg.Database.URL ≠ "" ∧ (Connect rt cfg).err ≠ none)) ∧
    ((Initialize rt cfg).err ≠ none →
        (Initialize rt cfg).server = none ∧
        ∃ ierr cerr, (Initialize rt cfg).err = some ierr ∧ (Connect rt cfg).err = some cerr ∧
          ierr.Unwrap = some cerr ∧ errorsIs ierr cerr = true) ∧
    ((Initialize rt cfg).err = none → ∃ srv, (Initialize rt cfg).server = some srv) ∧
    (cfg.Database.URL = "" →
        (Initialize rt cfg).calls = [] ∧ (Initialize rt cfg).err = none ∧
        ∃ srv, (Initialize rt cfg).server = some srv ∧ srv.DB = none) := by
  by_cases hurl : cfg.Database.URL = ""
  · have hlen : ¬ 0 < len cfg.Database.URL := by
      rw [len_pos_iff]; simpa using hurl
    have hres : (Initialize rt cfg).err = none ∧ (Initialize rt cfg).calls = [] ∧
        ∃ srv, (Initialize rt cfg).server = some srv ∧ srv.DB = none := by
      simp [Initialize, hlen]
    obtain ⟨h1, h2, srv, h3, h4⟩ := hres
    refine ⟨?_, ?_, ?_, ?_⟩
    · simp [h1, hurl]
    · intro h; exact absurd h1 h
    · intro _; exact ⟨srv, h3⟩
    · intro _; exact ⟨h2, h1, srv, h3, h4⟩
  · have hlen : 0 < len cfg.Database.URL := (len_pos_iff _).2 hurl
    cases hc : (Connect rt cfg).err with
    | none => simp [Initialize, hlen, hurl, hc]
    | some cerr =>
      simp [Initialize, hlen, hurl, hc, GoError.Unwrap, errorsIs_wrapError, errorsIs_self]

/-- Witness of C8: with an empty URL nothing is called; with a URL and a driver that
rejects the schema switch, `Initialize` returns an error and no server. -/
theorem C8_initialize_error_iff_witness :
    (Initialize rtHealthy cfgNoDatabase).calls = [] ∧
    (Initialize rtHealthy cfgNoDatabase).err = none ∧
    (Initialize rtRejecting cfgReporting).err ≠ none ∧
    (Initialize rtRejecting cfgReporting).server = none :=
  ⟨((C8_initialize_error_iff rtHealthy cfgNoDatabase).2.2.2 rfl).1,
   ((C8_initialize_error_iff rtHealthy cfgNoDatabase).2.2.2 rfl).2.1,
   by decide,
   ((C8_initialize_error_iff rtRejecting cfgReporting).2.1 (by decide)).1⟩

/-- C9: when pool creation succeeds with pool `db`, `Connect` issues the statement
`SET search_path TO <schema>` exactly once, after creating the pool, if the
schema is non-empty and not `public`, and issues no statement otherwise; in the
latter case it returns `db` with a nil error. -/
theorem C9_schema_switch_iff (rt : Runtime) (cfg : config.Config) (db : Pool)
    (hnew : rt.pgxpoolNew cfg.Database.URL = Except.ok db) :
    ((cfg.Database.Schema ≠ "" ∧ cfg.Database.Schema ≠ "public") →
        (Connect rt cfg).calls =
          [DbCall.New cfg.Database.URL,
           DbCall.Exec db ("SET search_path TO " ++ cfg.Database.Schema)]) ∧
    (¬ (cfg.Database.Schema ≠ "" ∧ cfg.Database.Schema ≠ "public") →
        (Connect rt cfg).calls = [DbCall.New cfg.Database.URL] ∧
        (Connect rt cfg).db = some db ∧ (Connect rt cfg).err = none) ∧
    ((∃ p sql, DbCall.Exec p sql ∈ (Connect rt cfg).calls) ↔
        (cfg.Database.Schema ≠ "" ∧ cfg.Database.Schema ≠ "public")) := by
  by_cases hs : cfg.Database.Schema ≠ "" ∧ cfg.Database.Schema ≠ "public"
  · have hlen : 0 < len cfg.Database.Schema := (len_pos_iff _).2 hs.1
    have hcalls : (Connect rt cfg).calls =
        [DbCall.New cfg.Database.URL,
         DbCall.Exec db ("SET search_path TO " ++ cfg.Database.Schema)] := by
      cases hx : rt.Exec db ("SET search_path TO " ++ cfg.Database.Schema) <;>
        simp [Connect, hnew, hlen, hs.2, hx]
    refine ⟨fun _ => hcalls, fun h => absurd hs h, ?_⟩
    rw [hcalls]
    simp [hs]
  · have hcond : (decide (0 < len cfg.Database.Schema) && (cfg.Database.Schema != "public"))
        = false := by
      by_cases he : cfg.Database.Schema = ""
      · have : ¬ 0 < len cfg.Database.Schema := by rw [len_pos_iff]; simpa using he
        simp [this]
      · have hp : cfg.Database.Schema = "public" := by
          by_contra hp; exact hs ⟨he, hp⟩
        simp [hp]
    have hres : Connect rt cfg =
        { db := some db, err := none, calls := [DbCall.New cfg.Database.URL] } := by
      simp only [Connect, hnew, hcond]
      rfl
    refine ⟨fun h => absurd h hs, fun _ => by simp [hres], ?_⟩
    rw [hres]
    simp [hs]

/-- Witness of C9: schema `reporting` gives one statement, schema `public` none. -/
theorem C9_schema_switch_iff_witness :
    (Connect rtHealthy cfgReporting).calls =
        [DbCall.New "postgres://localhost/app",
         DbCall.Exec { id := 1 } "SET search_path TO reporting"] ∧
    (Connect rtHealthy cfgPublic).calls = [DbCall.New "postgres://localhost/app"] ∧
    (Connect rtHealthy cfgPublic).db = some { id := 1 } ∧
    (Connect rtHealthy cfgPublic).err = none :=
  ⟨(C9_schema_switch_iff rtHealthy cfgReporting { id := 1 } rfl).1 (by decide),
   (C9_schema_switch_iff rtHealthy cfgPublic { id := 1 } rfl).2.1 (by decide)⟩

/-- C10: when the pool is created, the schema is non-empty and not `public`, and the
schema-switch statement fails with `e`, `Connect` returns a nil pool and an
error that wraps `e` and whose message is
`cannot switch to database schema <quoted schema>: <message of e>`; and
`Initialize`, which calls `Connect` when the database URL is set, then returns
a nil server and an error that still wraps `e`. -/
theorem C10_schema_switch_failure (rt : Runtime) (cfg : config.Config) (db : Pool) (e : GoError)
    (hnew : rt.pgxpoolNew cfg.Database.URL = Except.ok db)
    (hne : cfg.Database.Schema ≠ "") (hpub : cfg.Database.Schema ≠ "public")
    (hexec : rt.Exec db ("SET search_path TO " ++ cfg.Database.Schema) = some e) :
    (Connect rt cfg).db = none ∧
    (∃ cerr, (Connect rt cfg).err = some cerr ∧ cerr.Unwrap = some e ∧
        errorsIs cerr e = true ∧
        cerr.Error = "cannot switch to database schema " ++ Quote rt cfg.Database.Schema ++ ": "
          ++ e.Error ∧
        Contains cerr.Error (Quote rt cfg.Database.Schema) ∧ Contains cerr.Error e.Error) ∧
    (cfg.Database.URL ≠ "" →
        (Initialize rt cfg).server = none ∧
        ∃ ierr, (Initialize rt cfg).err = some ierr ∧ errorsIs ierr e = true ∧
          Contains ierr.Error (Quote rt cfg.Database.Schema)) := by
  have hlen : 0 < len cfg.Database.Schema := (len_pos_iff _).2 hne
  have hres : Connect rt cfg =
      { db := none
        err := some (GoError.wrapError
          ("cannot switch to database schema " ++ Quote rt cfg.Database.Schema ++ ": "
            ++ e.Error) e)
        calls := [DbCall.New cfg.Database.URL,
          DbCall.Exec db ("SET search_path TO " ++ cfg.Database.Schema)] } := by
    simp [Connect, hnew, hlen, hpub, hexec]
  have hq : Contains ("cannot switch to database schema " ++ Quote rt cfg.Database.Schema ++ ": "
      ++ e.Error) (Quote rt cfg.Database.Schema) := by
    have := contains_mid "cannot switch to database schema " (Quote rt cfg.Database.Schema)
      (": " ++ e.Error)
    simpa [String.append_assoc] using this
  have he : Contains ("cannot switch to database schema " ++ Quote rt cfg.Database.Schema ++ ": "
      ++ e.Error) e.Error := by
    have := contains_mid ("cannot switch to database schema " ++ Quote rt cfg.Database.Schema
      ++ ": ") e.Error ""
    simpa using this
  refine ⟨by rw [hres], ⟨GoError.wrapError
          ("cannot switch to database schema " ++ Quote rt cfg.Database.Schema ++ ": "
            ++ e.Error) e, by rw [hres], rfl, ?_, rfl, hq, he⟩, ?_⟩
  · exact errorsIs_wrapError _ _ _ (errorsIs_self e)
  · intro hurl
    have hl : 0 < len cfg.Database.URL := (len_pos_iff _).2 hurl
    refine ⟨by simp [Initialize, hl, hres], ?_⟩
    refine ⟨GoError.wrapError ("cannot connect to postgres database: " ++
      ("cannot switch to database schema " ++ Quote rt cfg.Database.Schema ++ ": "
            ++ e.Error)) (GoError.wrapError
          ("cannot switch to database schema " ++ Quote rt cfg.Database.Schema ++ ": "
            ++ e.Error) e), by simp [Initialize, hl, hres, GoError.Error], ?_, ?_⟩
    · exact errorsIs_wrapError _ _ _ (errorsIs_wrapError _ _ _ (errorsIs_self e))
    · have h2 := contains_mid "cannot connect to postgres database: "
        ("cannot switch to database schema " ++ Quote rt cfg.Database.Schema ++ ": " ++ e.Error) ""
      simp only [String.append_empty] at h2
      exact contains_trans h2 hq

/-- Witness of C10 at schema `reporting` with a driver that rejects the statement. -/
theorem C10_schema_switch_failure_witness :
    (Connect rtRejecting cfgReporting).db = none ∧
    (Initialize rtRejecting cfgReporting).server = none :=
  ⟨(C10_schema_switch_failure rtRejecting cfgReporting { id := 1 } errNoSchema rfl
      (by decide) (by decide) rfl).1,
   ((C10_schema_switch_failure rtRejecting cfgReporting { id := 1 } errNoSchema rfl
      (by decide) (by decide) rfl).2.2 (by decide)).1⟩

/-! ## Properties: the lifecycle manager (C1-C5) -/

theorem withTimeout_err (p : DoneContext) (now : Nat) :
    (WithTimeout p (5 * Second) now).err = p.err := by
  have h5 : ¬ now + 5 * Second ≤ now := by simp [Second]
  unfold WithTimeout WithDeadline
  cases hd : p.deadline with
  | none => cases he : p.err <;> simp [h5]
  | some cur =>
    by_cases hlt : cur < now + 5 * Second
    · simp [hlt]
    · cases he : p.err <;> simp [hlt, h5]

theorem withTimeout_deadline (p : DoneContext) (now : Nat) :
    (WithTimeout p (5 * Second) now).deadline =
      some (match p.deadline with
        | some cur => min cur (now + 5 * Second)
        | none => now + 5 * Second) := by
  unfold WithTimeout WithDeadline
  cases hd : p.deadline with
  | none => simp
  | some cur =>
    by_cases hlt : cur < now + 5 * Second
    · simp [hlt, Nat.min_eq_left (Nat.le_of_lt hlt)]
    · simp [hlt, Nat.min_eq_right (Nat.le_of_not_lt hlt)]

theorem shutdown_eq (s : Server) (sh : DoneContext → Option GoError) (st : State) :
    shutdown s sh st =
      { st with
        pc := PC.returned
        ctxShutdown := some (WithTimeout { deadline := st.parentDeadline, err := st.parentErr }
          (5 * Second) st.now)
        err := sh (WithTimeout { deadline := st.parentDeadline, err := st.parentErr }
          (5 * Second) st.now)
        result := (sh (WithTimeout { deadline := st.parentDeadline, err := st.parentErr }
          (5 * Second) st.now)).map (fun e => shutdownError e st.errServer)
        trace := st.trace ++ (match s.DB with
            | some db => [Effect.DBClose db]
            | none => []) ++
          [Effect.EchoShutdown (WithTimeout { deadline := st.parentDeadline, err := st.parentErr }
            (5 * Second) st.now)] } := by
  unfold shutdown
  cases hdb : s.DB <;>
    cases hsh : sh (WithTimeout { deadline := st.parentDeadline, err := st.parentErr }
      (5 * Second) st.now) <;> simp [hsh]

theorem shutdown_pc (s : Server) (sh : DoneContext → Option GoError) (st : State) :
    (shutdown s sh st).pc = PC.returned := by
  rw [shutdown_eq]

theorem step_returned (s : Server) (sh : DoneContext → Option GoError) (st : State) (ev : Event)
    (h : st.pc = PC.returned) : step s sh st ev = st := by
  simp [step, h]

theorem foldl_returned (s : Server) (sh : DoneContext → Option GoError) (evs : List Event) :
    ∀ st : State, st.pc = PC.returned → evs.foldl (step s sh) st = st := by
  induction evs with
  | nil => intro st _; rfl
  | cons ev evs ih =>
    intro st h
    simp only [List.foldl_cons, step_returned s sh st ev h]
    exact ih st h

theorem deliver_trace (st : State) (ev : Event) : (deliver st ev).trace = st.trace := by
  cases ev <;> simp only [deliver]
  split <;> rfl

theorem deliver_pc_ne_returned (st : State) (ev : Event) (h : st.pc ≠ PC.returned) :
    (deliver st ev).pc ≠ PC.returned := by
  cases ev <;> simp only [deliver] <;> try exact h
  split
  · simp
  · exact h

theorem resume_sound (s : Server) (sh : DoneContext → Option GoError) (st : State)
    (hpc : st.pc ≠ PC.returned) (htr : st.trace = [Effect.EchoStart (hostAddr s)]) :
    Sound s sh (resume s sh st) := by
  unfold resume
  cases h : st.pc with
  | returned => exact absurd h hpc
  | inEchoStart => exact ⟨fun _ => htr, fun h2 => absurd h2 (by simp [h])⟩
  | waitDone =>
    by_cases hd : ctxServerDone st = true
    · simp only [hd, if_true]
      rw [shutdown_eq]
      refine ⟨fun h2 => absurd rfl h2, fun _ => ?_⟩
      refine ⟨?_, rfl, ?_, rfl, rfl⟩
      · simpa [ctxServerDone] using hd
      · simp [htr]
    · simp only [hd]
      exact ⟨fun _ => htr, fun h2 => absurd h2 (by simp [h])⟩

theorem step_sound (s : Server) (sh : DoneContext → Option GoError) (st : State) (ev : Event)
    (h : Sound s sh st) : Sound s sh (step s sh st ev) := by
  by_cases hpc : st.pc = PC.returned
  · rw [step_returned s sh st ev hpc]; exact h
  · have hstep : step s sh st ev = resume s sh (deliver st ev) := by
      unfold step
      cases hq : st.pc with
      | returned => exact absurd hq hpc
      | inEchoStart => rfl
      | waitDone => rfl
    rw [hstep]
    apply resume_sound s sh _ (deliver_pc_ne_returned st ev hpc)
    rw [deliver_trace]
    exact h.1 hpc

theorem foldl_sound (s : Server) (sh : DoneContext → Option GoError) (evs : List Event) :
    ∀ st : State, Sound s sh st → Sound s sh (evs.foldl (step s sh) st) := by
  induction evs with
  | nil => intro st h; exact h
  | cons ev evs ih =>
    intro st h
    exact ih _ (step_sound s sh st ev h)

theorem start_sound (s : Server) (ctx : DoneContext) (sh : DoneContext → Option GoError) :
    Sound s sh (start s ctx) :=
  ⟨fun _ => rfl, fun h => absurd h (by simp [start])⟩

theorem startServer_sound (s : Server) (ctx : DoneContext) (sh : DoneContext → Option GoError)
    (evs : List Event) : Sound s sh (StartServer s ctx sh evs) :=
  foldl_sound s sh evs _ (start_sound s ctx sh)

theorem resume_errServer (s : Server) (sh : DoneContext → Option GoError) (st : State) :
    (resume s sh st).errServer = st.errServer := by
  unfold resume
  split
  · split
    · rw [shutdown_eq]
    · rfl
  · rfl

theorem resume_pc_ne_inEchoStart (s : Server) (sh : DoneContext → Option GoError) (st : State)
    (h : st.pc ≠ PC.inEchoStart) : (resume s sh st).pc ≠ PC.inEchoStart := by
  unfold resume
  split
  · split
    · rw [shutdown_pc]; simp
    · exact h
  · exact h

theorem step_after_start (s : Server) (sh : DoneContext → Option GoError) (st : State)
    (ev : Event) (h : st.pc ≠ PC.inEchoStart) :
    (step s sh st ev).pc ≠ PC.inEchoStart ∧ (step s sh st ev).errServer = st.errServer := by
  unfold step
  cases hpc : st.pc with
  | inEchoStart => exact absurd hpc h
  | returned => simp [hpc]
  | waitDone =>
    have hd : (deliver st ev).pc = PC.waitDone ∧ (deliver st ev).errServer = st.errServer := by
      cases ev <;> simp [deliver, hpc]
    simp only []
    refine ⟨resume_pc_ne_inEchoStart s sh _ (by simp [hd.1]), ?_⟩
    rw [resume_errServer, hd.2]

theorem foldl_after_start (s : Server) (sh : DoneContext → Option GoError) (evs : List Event) :
    ∀ st : State, st.pc ≠ PC.inEchoStart →
      (evs.foldl (step s sh) st).pc ≠ PC.inEchoStart ∧
      (evs.foldl (step s sh) st).errServer = st.errServer := by
  induction evs with
  | nil => intro st h; exact ⟨h, rfl⟩
  | cons ev evs ih =>
    intro st h
    have h1 := step_after_start s sh st ev h
    have h2 := ih _ h1.1
    exact ⟨h2.1, h2.2.trans h1.2⟩

theorem step_inEchoStart (s : Server) (sh : DoneContext → Option GoError) (st : State)
    (ev : Event) (hpc : st.pc = PC.inEchoStart) (hev : ev.isStartReturn = false) :
    (step s sh st ev).pc = PC.inEchoStart ∧ (step s sh st ev).trace = st.trace ∧
      (step s sh st ev).result = st.result := by
  cases ev <;> simp [step, deliver, resume, hpc, Event.isStartReturn] at hev ⊢

/-- While `s.Echo.Start` has not returned, `StartServer` stays inside that call
whatever signals and cancellations arrive: it makes no further call and does
not return. -/
theorem foldl_inEchoStart (s : Server) (sh : DoneContext → Option GoError) (evs : List Event) :
    ∀ st : State, st.pc = PC.inEchoStart → (∀ ev ∈ evs, ev.isStartReturn = false) →
      (evs.foldl (step s sh) st).pc = PC.inEchoStart ∧
      (evs.foldl (step s sh) st).trace = st.trace ∧
      (evs.foldl (step s sh) st).result = st.result := by
  induction evs with
  | nil => intro st h _; exact ⟨h, rfl, rfl⟩
  | cons ev evs ih =>
    intro st h hev
    have h1 := step_inEchoStart s sh st ev h (hev ev (List.mem_cons_self _ _))
    have h2 := ih _ h1.1 (fun e he => hev e (List.mem_cons_of_mem _ he))
    exact ⟨h2.1, h2.2.1.trans h1.2.1, h2.2.2.trans h1.2.2⟩

theorem step_startReturns (s : Server) (sh : DoneContext → Option GoError) (st : State)
    (x : Option GoError) (hpc : st.pc = PC.inEchoStart) :
    (step s sh st (Event.startReturns x)).pc ≠ PC.inEchoStart ∧
      (step s sh st (Event.startReturns x)).errServer = listenerError x := by
  have hstep : step s sh st (Event.startReturns x) =
      resume s sh { st with pc := PC.waitDone, errServer := listenerError x } := by
    simp [step, deliver, hpc]
  rw [hstep]
  exact ⟨resume_pc_ne_inEchoStart s sh _ (by simp), by rw [resume_errServer]⟩

/-- As long as `s.Echo.Start` has not returned, `StartServer` has neither returned
nor called anything but `s.Echo.Start`, whichever signals, cancellations and
delays occur. -/
theorem startServer_blocks_in_EchoStart (s : Server) (ctx : DoneContext)
    (sh : DoneContext → Option GoError) (evs : List Event)
    (hevs : ∀ ev ∈ evs, ev.isStartReturn = false) :
    (StartServer s ctx sh evs).pc = PC.inEchoStart ∧
      (StartServer s ctx sh evs).trace = [Effect.EchoStart (hostAddr s)] ∧
      (StartServer s ctx sh evs).result = none :=
  foldl_inEchoStart s sh evs (start s ctx) rfl hevs

/-- The local `errServer` of a call that is past `s.Echo.Start` is the filtered
return value of that call. -/
theorem startServer_errServer (s : Server) (ctx : DoneContext)
    (sh : DoneContext → Option GoError) (pre post : List Event) (x : Option GoError)
    (hpre : ∀ ev ∈ pre, ev.isStartReturn = false) :
    (StartServer s ctx sh (pre ++ Event.startReturns x :: post)).errServer = listenerError x := by
  unfold StartServer
  rw [List.foldl_append, List.foldl_cons]
  have h0 := foldl_inEchoStart s sh pre (start s ctx) rfl hpre
  have h1 := step_startReturns s sh _ x h0.1
  have h2 := foldl_after_start s sh post _ h1.1
  exact h2.2.trans h1.2

/-- Once `s.Echo.Start` has returned, the first signal makes `StartServer` run the
shutdown body and return. -/
theorem startServer_completes (s : Server) (ctx : DoneContext)
    (sh : DoneContext → Option GoError) (pre mid post : List Event) (x : Option GoError)
    (hpre : ∀ ev ∈ pre, ev.isStartReturn = false) :
    (StartServer s ctx sh (pre ++ Event.startReturns x :: (mid ++ Event.signal :: post))).pc
      = PC.returned := by
  unfold StartServer
  rw [List.foldl_append, List.foldl_cons, List.foldl_append, List.foldl_cons]
  have h0 := foldl_inEchoStart s sh pre (start s ctx) rfl hpre
  have h1 := step_startReturns s sh _ x h0.1
  have h2 := foldl_after_start s sh mid _ h1.1
  generalize List.foldl (step s sh) (step s sh (List.foldl (step s sh) (start s ctx) pre)
    (Event.startReturns x)) mid = st at h2
  have h3 : (step s sh st Event.signal).pc = PC.returned := by
    cases hpc : st.pc with
    | inEchoStart => exact absurd hpc h2.1
    | returned => simp [step, hpc]
    | waitDone => simp [step, deliver, resume, hpc, ctxServerDone, shutdown_pc]
  exact (foldl_returned s sh post _ h3).symm ▸ h3

/-- The shutdown context of a call that has returned: its deadline is the earlier
of the parent's deadline and 5 seconds after the shutdown body began, and it is
done from the start exactly when the parent was done at that moment. -/
theorem startServer_ctxShutdown (s : Server) (ctx : DoneContext)
    (sh : DoneContext → Option GoError) (evs : List Event) (st : State)
    (hst : StartServer s ctx sh evs = st) (hret : st.pc = PC.returned) :
    ∃ c, st.ctxShutdown = some c ∧
      c.deadline = some (match st.parentDeadline with
        | some cur => min cur (st.now + 5 * Second)
        | none => st.now + 5 * Second) ∧
      c.err = st.parentErr ∧
      (st.cancelServer = false → c.err ≠ none) := by
  have h := (hst ▸ startServer_sound s ctx sh evs : Sound s sh st).2 hret
  refine ⟨_, h.2.1, withTimeout_deadline _ _, withTimeout_err _ _, ?_⟩
  intro hc
  rw [withTimeout_err]
  have hd := h.1
  simp only [ctxServerDone, hc, Bool.false_or] at hd
  intro hn
  have hn2 : st.parentErr = none := hn
  rw [hn2] at hd
  simp at hd

/-- C1: in every run of `StartServer` that has returned, for every server, every
sequence of events (any number of signals among them) and every answer of
`s.Echo.Shutdown`, the calls made after `s.Echo.Start` are exactly: one
`DB.Close` when `s.DB` is non-nil, none when it is nil, then one
`Echo.Shutdown`, whose answer is the local `err`. -/
theorem C1_shutdown_sequence (s : Server) (ctx : DoneContext)
    (sh : DoneContext → Option GoError) (evs : List Event)
    (hret : (StartServer s ctx sh evs).pc = PC.returned) :
    ∃ c : DoneContext,
      (StartServer s ctx sh evs).trace =
        [Effect.EchoStart (hostAddr s)] ++ (match s.DB with
          | some db => [Effect.DBClose db]
          | none => []) ++ [Effect.EchoShutdown c] ∧
      (StartServer s ctx sh evs).err = sh c := by
  have h := (startServer_sound s ctx sh evs).2 hret
  exact ⟨_, h.2.2.1, h.2.2.2.1⟩

/-- Witness of C1: two signals after the listener stopped and a drain that times out,
on a server with a pool and on one without. -/
theorem C1_shutdown_sequence_witness :
    (StartServer srvWithDB ctxBackground shutdownTimesOut
        [Event.startReturns (some ErrServerClosed), Event.signal, Event.signal]).pc
      = PC.returned ∧
    (∃ c : DoneContext,
      (StartServer srvWithDB ctxBackground shutdownTimesOut
          [Event.startReturns (some ErrServerClosed), Event.signal, Event.signal]).trace =
        [Effect.EchoStart (hostAddr srvWithDB)] ++ (match srvWithDB.DB with
          | some db => [Effect.DBClose db]
          | none => []) ++ [Effect.EchoShutdown c] ∧
      (StartServer srvWithDB ctxBackground shutdownTimesOut
          [Event.startReturns (some ErrServerClosed), Event.signal, Event.signal]).err
        = shutdownTimesOut c) ∧
    (∃ c : DoneContext,
      (StartServer srvNoDB ctxBackground shutdownTimesOut
          [Event.startReturns (some ErrServerClosed), Event.signal, Event.signal]).trace =
        [Effect.EchoStart (hostAddr srvNoDB)] ++ (match srvNoDB.DB with
          | some db => [Effect.DBClose db]
          | none => []) ++ [Effect.EchoShutdown c] ∧
      (StartServer srvNoDB ctxBackground shutdownTimesOut
          [Event.startReturns (some ErrServerClosed), Event.signal, Event.signal]).err
        = shutdownTimesOut c) :=
  ⟨by decide,
   C1_shutdown_sequence srvWithDB ctxBackground shutdownTimesOut
    [Event.startReturns (some ErrServerClosed), Event.signal, Event.signal] (by decide),
   C1_shutdown_sequence srvNoDB ctxBackground shutdownTimesOut
    [Event.startReturns (some ErrServerClosed), Event.signal, Event.signal] (by decide)⟩

/-- C2, evaluated: two signals, ten seconds and a cancellation of the parent arrive
while `s.Echo.Start` has not returned; `StartServer` is still inside
`s.Echo.Start`, has made no other call (no `DB.Close`, no `Echo.Shutdown`) and
has not returned. -/
theorem C2_no_shutdown_while_start_blocks :
    (StartServer srvWithDB ctxBackground shutdownOk
        [Event.signal, Event.elapse (10 * Second), Event.signal, Event.cancel,
         Event.elapse (10 * Second)]).pc = PC.inEchoStart ∧
    (StartServer srvWithDB ctxBackground shutdownOk
        [Event.signal, Event.elapse (10 * Second), Event.signal, Event.cancel,
         Event.elapse (10 * Second)]).cancelServer = true ∧
    (StartServer srvWithDB ctxBackground shutdownOk
        [Event.signal, Event.elapse (10 * Second), Event.signal, Event.cancel,
         Event.elapse (10 * Second)]).trace = [Effect.EchoStart "localhost:8080"] := by
  decide

/-- C3 fails as stated: `s.Echo.Start` returns a bind error, which is not
`http.ErrServerClosed`; after a signal `s.Echo.Shutdown` returns nil, and
`StartServer` returns nil. -/
theorem C3_counterexample :
    errorsIs errBind ErrServerClosed = false ∧
    (StartServer srvWithDB ctxBackground shutdownOk
        [Event.startReturns (some errBind), Event.signal]).pc = PC.returned ∧
    (StartServer srvWithDB ctxBackground shutdownOk
        [Event.startReturns (some errBind), Event.signal]).errServer = some errBind ∧
    (StartServer srvWithDB ctxBackground shutdownOk
        [Event.startReturns (some errBind), Event.signal]).result = none := by
  decide

/-- C3 as amended: when `s.Echo.Start` returns an error `e` that is not
`http.ErrServerClosed`, `e` is kept as `errServer`, and a run that has returned
returns a non-nil error exactly when `s.Echo.Shutdown` returned one; the message
of that error contains the message of `e`. An error that is
`http.ErrServerClosed`, and the nil error, leave `errServer` nil. -/
theorem C3_listener_error_secondary (s : Server) (ctx : DoneContext)
    (sh : DoneContext → Option GoError) (pre post : List Event) (e : GoError) (st : State)
    (hpre : ∀ ev ∈ pre, ev.isStartReturn = false)
    (hne : errorsIs e ErrServerClosed = false)
    (hst : StartServer s ctx sh (pre ++ Event.startReturns (some e) :: post) = st)
    (hret : st.pc = PC.returned) :
    st.errServer = some e ∧
    (st.result ≠ none ↔ st.err ≠ none) ∧
    (∀ r, st.result = some r → Contains r.Error e.Error) ∧
    (∃ c, Effect.EchoShutdown c ∈ st.trace ∧ st.err = sh c) ∧
    listenerError (some ErrServerClosed) = none ∧ listenerError none = none := by
  have hes : st.errServer = some e := by
    rw [← hst, startServer_errServer s ctx sh pre post (some e) hpre]
    simp [listenerError, hne]
  have h := (hst ▸ startServer_sound s ctx sh _ : Sound s sh st).2 hret
  obtain ⟨_, _, htr, herr, hres⟩ := h
  refine ⟨hes, ?_, ?_, ⟨_, ?_, herr⟩, by decide, rfl⟩
  · rw [hres, herr]
    cases sh (WithTimeout { deadline := st.parentDeadline, err := st.parentErr }
      (5 * Second) st.now) <;> simp
  · intro r hr
    rw [hres] at hr
    cases hsh : sh (WithTimeout { deadline := st.parentDeadline, err := st.parentErr }
      (5 * Second) st.now) with
    | none => simp [hsh] at hr
    | some e2 =>
      simp only [hsh, Option.map_some', Option.some.injEq] at hr
      subst hr
      simp only [shutdownError, GoError.Error, hes, fmtV]
      have := contains_mid ("could not shut down gracefully: " ++ e2.Error ++
        ". After server error: ") e.Error ""
      simpa using this
  · rw [htr]; simp

/-- Witness of C3 as amended: a bind error, then a signal, and a drain that times out. -/
theorem C3_listener_error_secondary_witness :
    (StartServer srvWithDB ctxBackground shutdownTimesOut
        ([] ++ Event.startReturns (some errBind) :: [Event.signal])).errServer = some errBind ∧
    ((StartServer srvWithDB ctxBackground shutdownTimesOut
        ([] ++ Event.startReturns (some errBind) :: [Event.signal])).result ≠ none ↔
      (StartServer srvWithDB ctxBackground shutdownTimesOut
        ([] ++ Event.startReturns (some errBind) :: [Event.signal])).err ≠ none) :=
  ⟨(C3_listener_error_secondary srvWithDB ctxBackground shutdownTimesOut [] [Event.signal]
      errBind _ (by simp) (by decide) rfl (by decide)).1,
   (C3_listener_error_secondary srvWithDB ctxBackground shutdownTimesOut [] [Event.signal]
      errBind _ (by simp) (by decide) rfl (by decide)).2.1⟩

/-- C4: in every run of `StartServer` that has returned, if `s.Echo.Shutdown`
returned an error `e`, the returned error is non-nil, unwraps to `e`, and its
message contains the message of `e` and, when a listener error `l` was
captured in `errServer`, the message of `l`; if `s.Echo.Shutdown` returned nil,
`StartServer` returns nil. -/
theorem C4_shutdown_error_combined (s : Server) (ctx : DoneContext)
    (sh : DoneContext → Option GoError) (evs : List Event) (st : State)
    (hst : StartServer s ctx sh evs = st) (hret : st.pc = PC.returned) :
    (∃ c, Effect.EchoShutdown c ∈ st.trace ∧ st.err = sh c) ∧
    (∀ e, st.err = some e →
      ∃ r, st.result = some r ∧ r.Unwrap = some e ∧ errorsIs r e = true ∧
        Contains r.Error e.Error ∧
        ∀ l, st.errServer = some l → Contains r.Error l.Error) ∧
    (st.err = none → st.result = none) := by
  have h := (hst ▸ startServer_sound s ctx sh _ : Sound s sh st).2 hret
  obtain ⟨_, _, htr, herr, hres⟩ := h
  refine ⟨⟨_, by rw [htr]; simp, herr⟩, ?_, ?_⟩
  · intro e he
    rw [herr] at he
    refine ⟨shutdownError e st.errServer, by rw [hres, he]; rfl, rfl,
      errorsIs_wrapError _ _ _ (errorsIs_self e), ?_, ?_⟩
    · simp only [shutdownError, GoError.Error]
      have := contains_mid "could not shut down gracefully: " e.Error
        (". After server error: " ++ fmtV st.errServer)
      simpa [String.append_assoc] using this
    · intro l hl
      simp only [shutdownError, GoError.Error, hl, fmtV]
      have := contains_mid ("could not shut down gracefully: " ++ e.Error ++
        ". After server error: ") l.Error ""
      simpa using this
  · intro he
    rw [herr] at he
    rw [hres, he]; rfl

/-- Witness of C4: a bind error is captured, the drain times out. -/
theorem C4_shutdown_error_combined_witness :
    (StartServer srvWithDB ctxBackground shutdownTimesOut
        [Event.startReturns (some errBind), Event.signal]).pc = PC.returned ∧
    ∃ r, (StartServer srvWithDB ctxBackground shutdownTimesOut
          [Event.startReturns (some errBind), Event.signal]).result = some r ∧
        r.Unwrap = some errDeadlineExceeded ∧ errorsIs r errDeadlineExceeded = true ∧
        Contains r.Error errDeadlineExceeded.Error ∧
        ∀ l, (StartServer srvWithDB ctxBackground shutdownTimesOut
          [Event.startReturns (some errBind), Event.signal]).errServer = some l →
          Contains r.Error l.Error :=
  ⟨by decide, (C4_shutdown_error_combined srvWithDB ctxBackground shutdownTimesOut
    [Event.startReturns (some errBind), Event.signal] _ rfl (by decide)).2.1
      errDeadlineExceeded (by decide)⟩

/-- C5, evaluated: after the same listener exit (a bind error), a signal hands
`s.Echo.Shutdown` a context that is not done, with deadline 5 seconds ahead, and
`StartServer` returns nil; a cancellation of the parent hands it a context that is already
cancelled, and `StartServer` returns the shutdown error. The calls are the same
in number and order; the contexts are not equivalent. -/
theorem C5_parent_cancel_hands_done_context :
    (StartServer srvWithDB ctxBackground shutdownByContext
        [Event.startReturns (some errBind), Event.signal]).trace =
      [Effect.EchoStart "localhost:8080", Effect.DBClose { id := 1 },
       Effect.EchoShutdown { deadline := some (5 * Second), err := none }] ∧
    (StartServer srvWithDB ctxBackground shutdownByContext
        [Event.startReturns (some errBind), Event.signal]).result = none ∧
    (StartServer srvWithDB ctxBackground shutdownByContext
        [Event.startReturns (some errBind), Event.cancel]).trace =
      [Effect.EchoStart "localhost:8080", Effect.DBClose { id := 1 },
       Effect.EchoShutdown { deadline := some (5 * Second), err := some CtxErr.Canceled }] ∧
    (StartServer srvWithDB ctxBackground shutdownByContext
        [Event.startReturns (some errBind), Event.cancel]).result =
      some (shutdownError errCanceled (some errBind)) := by
  decide

end Aetherel
